import Mathlib

/-!
Verification development for the gosync one-way directory synchronizer
(pkg/syncer/syncer.go, cmd/root.go, cmd/gosync/main.go).

The syncer is shallowly embedded: file metadata becomes a structure, the
per-file classification (processFile) becomes a pure function on stat
results, the copy path (copyFile) becomes a list of filesystem effects,
and Start becomes a function from a walk trace and a destination state to
either a configuration error or a run trace.  Concurrency is modelled
sequentially: each enqueued job is independent and the orchestrator closes
the queue and joins all workers before returning, so the set of effects of
a run does not depend on the interleaving.
-/

namespace GoSync

/-- Metadata returned by os.Stat, as used by syncer.go: Size (int64 bytes),
ModTime (an instant, modelled as integer nanoseconds since the epoch), and
Mode (permission bits). -/
structure FileInfo where
  size : Int
  modTime : Int
  mode : Nat
deriving Repr, DecidableEq

/-- Outcome of an os.Stat call as distinguished by processFile
(syncer.go line 77-87): success with metadata, a not-exist error
(os.IsNotExist), or any other error. -/
inductive StatResult where
  | ok (info : FileInfo)
  | notExist
  | otherError
deriving Repr, DecidableEq

/-- Outcome of one processFile call (syncer.go lines 64-91). -/
inductive ProcessOutcome where
  | skippedUpToDate
  | abortedDestStatError
  | copied
  | panicked
deriving Repr, DecidableEq

/-- Shallow embedding of Syncer.processFile (syncer.go lines 64-91).

The source stat (line 71) may fail; the code only logs a warning and does
NOT return, so srcInfo stays nil.  The destination stat (line 77): on
success the code evaluates
  srcInfo.ModTime().After(destInfo.ModTime())
first (line 80) — when srcInfo is nil this is a nil-pointer dereference,
a runtime panic, modelled as the panicked outcome.  Go time.After is a
strict comparison of instants, so the skip condition is
  not (src.modTime > dest.modTime) and src.size = dest.size.
A destination stat error other than not-exist returns without copying
(lines 84-87).  Otherwise control falls through to copyFile (line 90). -/
def processFile (srcStat : Option FileInfo) (destStat : StatResult) : ProcessOutcome :=
  match destStat with
  | .ok destInfo =>
      match srcStat with
      | some srcInfo =>
          if ¬ (srcInfo.modTime > destInfo.modTime) ∧ srcInfo.size = destInfo.size then
            .skippedUpToDate
          else
            .copied
      | none => .panicked
  | .notExist => .copied
  | .otherError => .abortedDestStatError

/-- Filesystem mutations the syncer can perform.  deleteEntry is included
so that its absence from every run trace is expressible; no code path of
the source emits it (deletion is the TODO at syncer.go lines 145 and 187). -/
inductive FsEffect where
  | mkdirAll (dir : String)
  | createFile (path : String)
  | writeBytes (path : String) (count : Int)
  | chtimes (path : String) (modTime : Int)
  | chmod (path : String) (mode : Nat)
  | deleteEntry (path : String)
deriving Repr, DecidableEq

/-- Approximation of Go filepath.Dir: everything before the final slash
(no path cleaning).  No theorem below depends on its exact value. -/
def filePathDir (p : String) : String :=
  let parts := p.splitOn "/"
  if parts.length ≤ 1 then "." else String.intercalate "/" parts.dropLast

/-- Approximation of Go filepath.Join for a root and a relative path
(no path cleaning).  No theorem below depends on its exact value. -/
def filePathJoin (dir rel : String) : String := dir ++ "/" ++ rel

/-- Shallow embedding of Syncer.copyFile (syncer.go lines 94-143) as the
list of filesystem mutations of a successful copy, in program order.

The dry-run check (line 98) comes first, before os.MkdirAll (line 104) and
every file operation, and returns with no effect.  Otherwise: parent
directories are created (line 104), the destination is created/truncated
(line 118), io.Copy streams all the source's bytes (line 126, so the byte
count written is the source size), os.Chtimes sets the destination
modification time to the source's (line 133), and os.Chmod sets the
destination mode to the source's (line 138).  A failure at the mkdir /
open / create / io.Copy stage aborts after a prefix of this list;
Chtimes/Chmod failures are logged warnings only.  Neither affects the
dry-run branch, which performs nothing. -/
def copyFileEffects (dryRun : Bool) (destinationPath : String) (srcInfo : FileInfo) :
    List FsEffect :=
  if dryRun then []
  else
    [ .mkdirAll (filePathDir destinationPath),
      .createFile destinationPath,
      .writeBytes destinationPath srcInfo.size,
      .chtimes destinationPath srcInfo.modTime,
      .chmod destinationPath srcInfo.mode ]

/-- State of a single destination path: present with metadata, or absent. -/
def statOf : Option FileInfo → StatResult
  | some i => .ok i
  | none => .notExist

/-- Effect of one filesystem mutation on the metadata of the single path
under observation.  Creating a file truncates it (size 0) and stamps the
current time `now`; writing n bytes makes the size n and stamps `now`;
Chtimes and Chmod overwrite the respective field; deletion removes the
entry; a mkdir does not touch a file's metadata. -/
def applyEffect (now : Int) (path : String) (st : Option FileInfo) : FsEffect → Option FileInfo
  | .mkdirAll _ => st
  | .createFile p => if p = path then some ⟨0, now, 438⟩ else st
  | .writeBytes p n =>
      if p = path then
        match st with
        | some i => some ⟨n, now, i.mode⟩
        | none => some ⟨n, now, 438⟩
      else st
  | .chtimes p t =>
      if p = path then
        match st with
        | some i => some ⟨i.size, t, i.mode⟩
        | none => none
      else st
  | .chmod p m =>
      if p = path then
        match st with
        | some i => some ⟨i.size, i.modTime, m⟩
        | none => none
      else st
  | .deleteEntry p => if p = path then none else st

/-- Replay a list of mutations over the metadata of one path. -/
def applyEffects (now : Int) (path : String) (effs : List FsEffect) (st : Option FileInfo) :
    Option FileInfo :=
  effs.foldl (applyEffect now path) st

/-- Configuration of one run (SyncOptions, syncer.go lines 15-22). -/
structure SyncOptions where
  sourcePath : String
  destinationPath : String
  dryRun : Bool
  delete : Bool
  verbose : Bool
  workers : Nat
deriving Repr, DecidableEq

/-- Worker-count default of NewSyncer (syncer.go lines 32-34): a zero
configured count is replaced by the CPU count. -/
def newSyncerWorkers (configured numCPU : Nat) : Nat :=
  if configured = 0 then numCPU else configured

/-- One invocation of the filepath.WalkDir callback (syncer.go lines
161-181): the path visited, rendered relative to the source root, whether
the entry is a directory, whether the walk delivered the entry with a
non-nil error (unreadable directory, failed lstat — including a failed
lstat of the root itself, which Go's WalkDir also delivers through the
callback), and the entry's metadata.  A filesystem tree determines a
sequence of such invocations; the model quantifies over the sequence. -/
structure WalkEvent where
  relPath : String
  isDir : Bool
  errOccurred : Bool
  info : FileInfo
deriving Repr, DecidableEq

/-- The WalkDir callback of Start (syncer.go lines 161-181).  Its return
value is the error Go's WalkDir propagates.  Every branch of the source
returns nil: a delivered error is logged and nil is returned (lines
162-165), the root relative path "." is skipped (lines 168-170),
directories return nil after a debug log (lines 174-177), and files are
sent to the job channel and return nil (lines 179-180). -/
def walkCallback (e : WalkEvent) : Option String :=
  if e.errOccurred then none
  else if e.relPath = "." then none
  else if e.isDir then none
  else none

/-- Error-propagation discipline of Go filepath.WalkDir: the callback is
invoked on each visited entry in order; a non-nil callback return stops
the walk and becomes WalkDir's return value; otherwise the walk continues
and WalkDir returns nil after the last entry.  (The callback of this
program never returns fs.SkipDir or fs.SkipAll, so that special case
cannot arise.) -/
def goWalkDirResult (cb : WalkEvent → Option String) : List WalkEvent → Option String
  | [] => none
  | e :: es =>
      match cb e with
      | some msg => some msg
      | none => goWalkDirResult cb es

/-- Relative paths recorded into the sourceFiles map (syncer.go line 172):
every entry that was delivered without error and is not the root.  The
map is written during the walk and — deletion being the TODO of lines 145
and 187 — never read. -/
def sourceFilesSeen (events : List WalkEvent) : List String :=
  (events.filter fun e => !e.errOccurred && e.relPath != ".").map (·.relPath)

/-- Jobs sent to the worker channel (syncer.go line 179): entries
delivered without error, other than the root, that are not directories. -/
def walkJobs (events : List WalkEvent) : List WalkEvent :=
  events.filter fun e => !e.errOccurred && e.relPath != "." && !e.isDir

/-- The only error Start can construct itself (syncer.go lines 149-151). -/
inductive ConfigError where
  | sameSourceDest
deriving Repr, DecidableEq

/-- Observable result of a run that passed the configuration check:
how many workers were spawned, the filesystem mutations performed (in a
canonical per-job order; jobs are independent, see below), and the error
value returned by the WalkDir call, which Start returns (line 189). -/
structure RunTrace where
  workersSpawned : Nat
  effects : List FsEffect
  walkErr : Option String
deriving Repr, DecidableEq

/-- Destination path of a job (syncer.go line 66): the destination root
joined with the job's source-relative path. -/
def jobDest (opts : SyncOptions) (e : WalkEvent) : String :=
  filePathJoin opts.destinationPath e.relPath

/-- Mutations performed for one job (worker → processFile → copyFile).
The worker re-stats the source (line 71); the model takes the metadata
captured at discovery, i.e. the stat succeeds and is stable during the
run.  The destination stat (line 77) is read off the destination state.
Only the copied outcome reaches copyFile (line 90). -/
def perFileEffects (opts : SyncOptions) (destState : String → Option FileInfo)
    (e : WalkEvent) : List FsEffect :=
  match processFile (some e.info) (statOf (destState (jobDest opts e))) with
  | .copied => copyFileEffects opts.dryRun (jobDest opts e) e.info
  | _ => []

/-- Shallow embedding of Syncer.Start (syncer.go lines 147-190).

First the configuration check (lines 149-151): equal source and
destination path strings return an error before anything else happens.
Otherwise the worker pool is started, the walk sends one job per
discovered file, the channel is closed and all workers are joined
(lines 184-185), and the WalkDir return value is returned (line 189).
Deletion of extra destination entries is an unimplemented TODO (lines 145
and 187): no code path deletes anything.  Workers run concurrently, but
each job's effects touch only that job's destination path, so the run's
effect set is presented as the per-job effects in discovery order, each
classified against the destination state at the start of the run. -/
def start (opts : SyncOptions) (events : List WalkEvent)
    (destState : String → Option FileInfo) : Except ConfigError RunTrace :=
  if opts.sourcePath = opts.destinationPath then
    .error .sameSourceDest
  else
    .ok
      { workersSpawned := opts.workers,
        effects := (walkJobs events).flatMap (perFileEffects opts destState),
        walkErr := goWalkDirResult walkCallback events }

/-- The mutations of a run: none when the configuration check failed. -/
def runEffects (r : Except ConfigError RunTrace) : List FsEffect :=
  match r with
  | .ok tr => tr.effects
  | .error _ => []

/-- Sequential actions of the orchestrator goroutine in Start, in program
order.  deletionPropagation is a marker for the deletion phase; the source
never performs it (TODO, syncer.go lines 145 and 187). -/
inductive Phase where
  | checkConfig
  | spawnWorker
  | walkSource
  | closeQueue
  | joinWorkers
  | deletionPropagation
  | returnResult
deriving Repr, DecidableEq

/-- Program-order phase list of Start (syncer.go lines 147-190): the
configuration check; on failure an immediate return; otherwise one worker
spawn per configured worker (lines 154-157), the source walk (161-181),
close of the job channel (line 184), the join of all workers (line 185,
after which every enqueued job has completed, since a worker exits only
once the closed channel is drained), and the return (line 189). -/
def startPhases (opts : SyncOptions) : List Phase :=
  if opts.sourcePath = opts.destinationPath then
    [.checkConfig, .returnResult]
  else
    .checkConfig :: (List.replicate opts.workers .spawnWorker ++
      [.walkSource, .closeQueue, .joinWorkers, .returnResult])

/-- A destination state holding one extra entry, /d/stale.txt, that no
source file maps onto. -/
def staleDest : String → Option FileInfo :=
  fun p => if p = "/d/stale.txt" then some ⟨3, 0, 420⟩ else none

/-- Walk of a source tree whose root carries a .gosyncignore file with the
single pattern build/ (7 bytes), and a build directory holding out.bin —
the relative path build/out.bin is matched by the pattern build/. -/
def ignoreTreeEvents : List WalkEvent :=
  [ ⟨".gosyncignore", false, false, ⟨7, 5, 420⟩⟩,
    ⟨"build", true, false, ⟨0, 5, 493⟩⟩,
    ⟨"build/out.bin", false, false, ⟨10, 5, 420⟩⟩ ]

/-! ### Helper lemmas -/

/-- A successful non-dry-run copy leaves the destination with the source's
size, modification time and mode, whatever was there before. -/
lemma applyEffects_copy_self (now : Int) (dst : String) (i : FileInfo)
    (st : Option FileInfo) :
    applyEffects now dst (copyFileEffects false dst i) st =
      some ⟨i.size, i.modTime, i.mode⟩ := by
  simp [applyEffects, copyFileEffects, applyEffect]

/-- A copy of one destination path does not change the state of another. -/
lemma applyEffects_copy_other (now : Int) (path dst : String) (dry : Bool)
    (i : FileInfo) (st : Option FileInfo) (h : dst ≠ path) :
    applyEffects now path (copyFileEffects dry dst i) st = st := by
  cases dry <;> simp [applyEffects, copyFileEffects, applyEffect, h]

/-- A job does not change the state of a path other than its destination. -/
lemma perFileEffects_other (opts : SyncOptions) (d0 : String → Option FileInfo)
    (now : Int) (path : String) (e : WalkEvent) (h : jobDest opts e ≠ path)
    (st : Option FileInfo) :
    applyEffects now path (perFileEffects opts d0 e) st = st := by
  unfold perFileEffects
  split
  · exact applyEffects_copy_other now path _ _ _ _ h
  · rfl

/-- Replaying over an appended effect list composes. -/
lemma applyEffects_append (now : Int) (path : String) (l1 l2 : List FsEffect)
    (st : Option FileInfo) :
    applyEffects now path (l1 ++ l2) st =
      applyEffects now path l2 (applyEffects now path l1 st) :=
  List.foldl_append ..

/-- Jobs none of which targets the observed path leave it unchanged. -/
lemma applyEffects_flatMap_other (opts : SyncOptions)
    (d0 : String → Option FileInfo) (now : Int) (path : String)
    (jobs : List WalkEvent) (h : ∀ f ∈ jobs, jobDest opts f ≠ path)
    (st : Option FileInfo) :
    applyEffects now path (jobs.flatMap (perFileEffects opts d0)) st = st := by
  induction jobs generalizing st with
  | nil => rfl
  | cons f rest ih =>
      rw [List.flatMap_cons, applyEffects_append,
        perFileEffects_other opts d0 now path f (h f (List.mem_cons_self f rest))]
      exact ih (fun g hg => h g (List.mem_cons_of_mem f hg)) st

/-- When destination paths of the jobs are pairwise distinct, the state of
one job's destination after the whole run is what that job alone left. -/
lemma applyEffects_flatMap_mem (opts : SyncOptions)
    (d0 : String → Option FileInfo) (now : Int) (jobs : List WalkEvent)
    (e : WalkEvent) (he : e ∈ jobs)
    (hnd : (jobs.map (jobDest opts)).Nodup) (st : Option FileInfo) :
    applyEffects now (jobDest opts e) (jobs.flatMap (perFileEffects opts d0)) st =
      applyEffects now (jobDest opts e) (perFileEffects opts d0 e) st := by
  induction jobs generalizing st with
  | nil => cases he
  | cons f rest ih =>
      rw [List.map_cons, List.nodup_cons] at hnd
      rw [List.flatMap_cons, applyEffects_append]
      rcases List.mem_cons.mp he with rfl | hmem
      · refine applyEffects_flatMap_other opts d0 now _ rest ?_ _
        intro g hg hEq
        exact hnd.1 (hEq ▸ List.mem_map_of_mem (jobDest opts) hg)
      · have hf : jobDest opts f ≠ jobDest opts e := by
          intro hEq
          exact hnd.1 (hEq ▸ List.mem_map_of_mem (jobDest opts) hmem)
        rw [perFileEffects_other opts d0 now _ f hf]
        exact ih hmem hnd.2 st

/-- After a job has run against the initial destination state, its
destination is classified up-to-date: either the job skipped because the
destination was already up-to-date (so nothing changed), or it copied and
the copy left size and modification time equal to the source's. -/
lemma classify_after_own_effects (opts : SyncOptions)
    (d0 : String → Option FileInfo) (now : Int) (e : WalkEvent)
    (hdry : opts.dryRun = false) :
    processFile (some e.info) (statOf (applyEffects now (jobDest opts e)
      (perFileEffects opts d0 e) (d0 (jobDest opts e)))) =
      .skippedUpToDate := by
  unfold perFileEffects
  cases hd : d0 (jobDest opts e) with
  | none =>
      simp [statOf, processFile, hdry, applyEffects_copy_self]
  | some d =>
      have hpf : processFile (some e.info) (StatResult.ok d) =
          if ¬ e.info.modTime > d.modTime ∧ e.info.size = d.size then
            ProcessOutcome.skippedUpToDate
          else ProcessOutcome.copied := rfl
      rw [show statOf (some d) = StatResult.ok d from rfl, hpf]
      by_cases h : ¬ e.info.modTime > d.modTime ∧ e.info.size = d.size
      · rw [if_pos h]
        simp [applyEffects, statOf, processFile, h]
      · rw [if_neg h]
        simp [hdry, applyEffects_copy_self, statOf, processFile]

/-! ### Claims -/

/-- C1: change classification (processFile, syncer.go lines 77-91).  For a
file job with source metadata src: an absent destination is copied; a
present destination d is skipped as up-to-date exactly when d's
modification time is greater than or equal to src's and d's size equals
src's, and is copied in every other combination. -/
theorem change_classification (src d : FileInfo) :
    processFile (some src) .notExist = .copied ∧
    processFile (some src) (.ok d) =
      (if d.modTime ≥ src.modTime ∧ d.size = src.size then
        ProcessOutcome.skippedUpToDate
      else ProcessOutcome.copied) := by
  refine ⟨rfl, ?_⟩
  have hiff : (¬ src.modTime > d.modTime ∧ src.size = d.size) ↔
      (d.modTime ≥ src.modTime ∧ d.size = src.size) := by
    constructor
    · rintro ⟨a, b⟩
      exact ⟨not_lt.mp a, b.symm⟩
    · rintro ⟨a, b⟩
      exact ⟨not_lt.mpr a, b.symm⟩
  simp only [processFile]
  rw [if_congr hiff rfl rfl]

/-- C7: when the source stat fails, processFile logs a warning but is
missing a return (syncer.go lines 71-74): with an existing destination it
goes on to evaluate srcInfo.ModTime() on the nil FileInfo — a nil-pointer
dereference that panics and crashes the run — and with an absent
destination it still proceeds to attempt the copy. -/
theorem srcStatFail_not_skipped :
    processFile none (.ok ⟨5, 10, 438⟩) = .panicked ∧
    processFile none .notExist = .copied :=
  ⟨rfl, rfl⟩

/-- C8: idempotence.  Running the sync a second time over the destination
state produced by the first run (with the source unchanged and jobs having
pairwise distinct destination paths) performs no mutation at all: every
file is classified up-to-date, because a successful copy leaves the
destination size equal to the source's and its modification time set to
the source's. -/
theorem sync_idempotent (opts : SyncOptions) (events : List WalkEvent)
    (d0 : String → Option FileInfo) (now : Int)
    (hdry : opts.dryRun = false)
    (hnd : ((walkJobs events).map (jobDest opts)).Nodup) :
    runEffects (start opts events
      (fun p => applyEffects now p (runEffects (start opts events d0)) (d0 p))) = [] := by
  by_cases hsd : opts.sourcePath = opts.destinationPath
  · simp [start, hsd, runEffects]
  · simp only [start, hsd, if_neg, runEffects, not_false_eq_true]
    rw [List.flatMap_eq_nil_iff]
    intro e he
    show perFileEffects opts _ e = []
    rw [perFileEffects]
    rw [applyEffects_flatMap_mem opts d0 now (walkJobs events) e he hnd]
    rw [classify_after_own_effects opts d0 now e hdry]

/-- The WalkDir callback of Start returns nil on every invocation: each of
its branches (delivered error, root, directory, file) returns nil. -/
lemma walkCallback_none (e : WalkEvent) : walkCallback e = none := by
  simp [walkCallback]

/-- With Start's callback, WalkDir returns nil whatever the walk visits,
since the first non-nil callback return would be the only error source. -/
lemma goWalkDirResult_none (events : List WalkEvent) :
    goWalkDirResult walkCallback events = none := by
  induction events with
  | nil => rfl
  | cons e es ih => simp [goWalkDirResult, walkCallback_none e, ih]

/-- Witness for sync_idempotent: a one-file source over an empty
destination; the second run performs no effects. -/
theorem sync_idempotent_witness :
    runEffects (start ⟨"/s", "/d", false, false, false, 1⟩
      [⟨"a.txt", false, false, ⟨3, 7, 420⟩⟩]
      (fun p => applyEffects 99 p
        (runEffects (start ⟨"/s", "/d", false, false, false, 1⟩
          [⟨"a.txt", false, false, ⟨3, 7, 420⟩⟩] (fun _ => none)))
        ((fun _ => none : String → Option FileInfo) p))) = [] :=
  sync_idempotent ⟨"/s", "/d", false, false, false, 1⟩
    [⟨"a.txt", false, false, ⟨3, 7, 420⟩⟩] (fun _ => none) 99 rfl (by decide)

/-- C2: with the delete option enabled, an empty source and a destination
holding the extra entry /d/stale.txt, the run performs no filesystem
effect whatsoever — in particular no deletion — and the stale entry is
still present afterwards.  Deletion propagation is the unimplemented TODO
of syncer.go lines 145 and 187; the --delete flag (documented in
cmd/root.go line 258 as deleting extra files from the destination) has no
effect. -/
theorem delete_flag_no_deletion :
    start ⟨"/s", "/d", false, true, false, 1⟩ [] staleDest =
      Except.ok ⟨1, [], none⟩ ∧
    applyEffects 0 "/d/stale.txt"
      (runEffects (start ⟨"/s", "/d", false, true, false, 1⟩ [] staleDest))
      (staleDest "/d/stale.txt") = some ⟨3, 0, 420⟩ := by
  constructor <;> rfl

/-- C3 counterexample: the source root carries a .gosyncignore whose only
pattern, build/, matches the relative path build/out.bin; the run
nevertheless creates build/out.bin in the destination (and copies the
ignore-file itself too): the code never reads an ignore-file. -/
theorem ignore_not_respected :
    FsEffect.createFile "/d/build/out.bin" ∈
      runEffects (start ⟨"/s", "/d", false, false, false, 1⟩ ignoreTreeEvents
        (fun _ => none)) ∧
    FsEffect.createFile "/d/.gosyncignore" ∈
      runEffects (start ⟨"/s", "/d", false, false, false, 1⟩ ignoreTreeEvents
        (fun _ => none)) := by
  constructor <;> simp [start, runEffects, ignoreTreeEvents, walkJobs,
    perFileEffects, statOf, processFile, copyFileEffects, jobDest, filePathJoin]

/-- C3 amended: the program has no ignore-file support.  Nothing filters
the walk: every file the source walk discovers is classified and, when out
of date (here: absent from the destination) and not in dry-run, copied
into the destination, whatever any ignore-file at the source root says. -/
theorem no_ignore_every_file_processed (opts : SyncOptions)
    (events : List WalkEvent) (destState : String → Option FileInfo)
    (e : WalkEvent) (hsd : opts.sourcePath ≠ opts.destinationPath)
    (he : e ∈ walkJobs events)
    (habs : destState (jobDest opts e) = none)
    (hdry : opts.dryRun = false) :
    FsEffect.createFile (jobDest opts e) ∈
      runEffects (start opts events destState) := by
  simp only [start, hsd, runEffects, if_neg, not_false_eq_true]
  refine List.mem_flatMap.mpr ⟨e, he, ?_⟩
  unfold perFileEffects
  rw [habs]
  simp [statOf, processFile, copyFileEffects, hdry]

/-- Witness for no_ignore_every_file_processed at a one-file source. -/
theorem no_ignore_witness :
    FsEffect.createFile (jobDest ⟨"/s", "/d", false, false, false, 1⟩
        ⟨"a.txt", false, false, ⟨3, 7, 420⟩⟩) ∈
      runEffects (start ⟨"/s", "/d", false, false, false, 1⟩
        [⟨"a.txt", false, false, ⟨3, 7, 420⟩⟩] (fun _ => none)) :=
  no_ignore_every_file_processed ⟨"/s", "/d", false, false, false, 1⟩
    [⟨"a.txt", false, false, ⟨3, 7, 420⟩⟩] (fun _ => none)
    ⟨"a.txt", false, false, ⟨3, 7, 420⟩⟩ (by decide) (by decide) rfl rfl

/-- C4: dry-run purity.  With the dry-run flag set, a run performs no
filesystem mutation at all — no file is created, written, chmod'd or
chtime'd, no directory is created and nothing is deleted — because
copyFile checks the flag and returns before os.MkdirAll and every file
operation (syncer.go lines 98-101). -/
theorem dry_run_pure (opts : SyncOptions) (events : List WalkEvent)
    (destState : String → Option FileInfo) (h : opts.dryRun = true) :
    runEffects (start opts events destState) = [] := by
  by_cases hsd : opts.sourcePath = opts.destinationPath
  · simp [start, hsd, runEffects]
  · simp only [start, hsd, runEffects, if_neg, not_false_eq_true]
    rw [List.flatMap_eq_nil_iff]
    intro e _
    unfold perFileEffects
    split
    · simp [copyFileEffects, h]
    · rfl

/-- Witness for dry_run_pure: a dry run over a source file that would
need copying performs no effects. -/
theorem dry_run_pure_witness :
    runEffects (start ⟨"/s", "/d", true, false, false, 1⟩
      [⟨"a.txt", false, false, ⟨3, 7, 420⟩⟩] (fun _ => none)) = [] :=
  dry_run_pure ⟨"/s", "/d", true, false, false, 1⟩
    [⟨"a.txt", false, false, ⟨3, 7, 420⟩⟩] (fun _ => none) rfl

/-- C5: configuration-error atomicity.  Equal source and destination path
strings make Start return the configuration error at once (syncer.go
lines 149-151): the run carries no trace — no worker spawn, no walk, no
filesystem effect — and the phase list is just the check followed by the
return. -/
theorem config_error_first (opts : SyncOptions) (events : List WalkEvent)
    (destState : String → Option FileInfo)
    (h : opts.sourcePath = opts.destinationPath) :
    start opts events destState = Except.error ConfigError.sameSourceDest ∧
    startPhases opts = [Phase.checkConfig, Phase.returnResult] := by
  constructor <;> simp [start, startPhases, h]

/-- Witness for config_error_first at equal concrete paths. -/
theorem config_error_first_witness :
    start ⟨"/same", "/same", false, false, false, 4⟩ [] (fun _ => none) =
      Except.error ConfigError.sameSourceDest ∧
    startPhases ⟨"/same", "/same", false, false, false, 4⟩ =
      [Phase.checkConfig, Phase.returnResult] :=
  config_error_first ⟨"/same", "/same", false, false, false, 4⟩ [] (fun _ => none) rfl

/-- C6 counterexample: an unreadable source root.  Go's WalkDir delivers
the failed lstat of the root through the callback; the callback of Start
logs it and returns nil (syncer.go lines 162-165), so WalkDir returns nil
and the run reports success — refuting that a root-level walk failure
surfaces as the run's final error. -/
theorem root_walk_error_swallowed :
    start ⟨"/s", "/d", false, false, false, 1⟩ [⟨".", false, true, ⟨0, 0, 0⟩⟩]
      (fun _ => none) = Except.ok ⟨1, [], none⟩ := by
  rfl

/-- C6 amended: walk errors — per-entry ones and a failure of the root
itself alike — are logged and skipped while the walk continues: an
errored entry contributes no job, later entries are still processed, and
because the callback returns nil on every entry, the WalkDir return value
that Start passes on is always nil.  Once the configuration check passes
the run never surfaces a traversal error. -/
theorem walk_errors_logged_and_skipped (opts : SyncOptions)
    (events : List WalkEvent) (destState : String → Option FileInfo)
    (e : WalkEvent) (es : List WalkEvent)
    (hsd : opts.sourcePath ≠ opts.destinationPath)
    (herr : e.errOccurred = true) :
    goWalkDirResult walkCallback events = none ∧
    start opts events destState =
      Except.ok ⟨opts.workers,
        (walkJobs events).flatMap (perFileEffects opts destState), none⟩ ∧
    walkJobs (e :: es) = walkJobs es := by
  refine ⟨goWalkDirResult_none events, ?_, ?_⟩
  · simp [start, hsd, goWalkDirResult_none]
  · simp [walkJobs, herr]

/-- Witness for walk_errors_logged_and_skipped: one errored entry. -/
theorem walk_errors_witness :
    goWalkDirResult walkCallback [⟨"bad", false, true, ⟨0, 0, 0⟩⟩] = none ∧
    start ⟨"/s", "/d", false, false, false, 1⟩ [⟨"bad", false, true, ⟨0, 0, 0⟩⟩]
        (fun _ => none) =
      Except.ok ⟨1, (walkJobs [⟨"bad", false, true, ⟨0, 0, 0⟩⟩]).flatMap
        (perFileEffects ⟨"/s", "/d", false, false, false, 1⟩ (fun _ => none)),
        none⟩ ∧
    walkJobs [⟨("bad" : String), false, true, (⟨0, 0, 0⟩ : FileInfo)⟩] = walkJobs [] :=
  walk_errors_logged_and_skipped ⟨"/s", "/d", false, false, false, 1⟩
    [⟨"bad", false, true, ⟨0, 0, 0⟩⟩] (fun _ => none)
    ⟨"bad", false, true, ⟨0, 0, 0⟩⟩ [] (by decide) rfl

/-- C9: copy/delete barrier.  Once the configuration check passes, the
orchestrator's program order is: check, spawn the workers, walk the
source, close the job queue, join all workers, return — the close and the
join (after which every enqueued job has completed, a worker exiting only
once the closed queue is drained) are the last actions before the return,
and no deletion-propagation phase occurs anywhere in any run (deletion is
the unimplemented TODO of syncer.go line 187, sited after the join), so a
deletion can never precede completion of the copy jobs. -/
theorem copy_delete_barrier (opts : SyncOptions)
    (h : opts.sourcePath ≠ opts.destinationPath) :
    startPhases opts =
      (Phase.checkConfig :: List.replicate opts.workers Phase.spawnWorker) ++
        [Phase.walkSource, Phase.closeQueue, Phase.joinWorkers,
          Phase.returnResult] ∧
    Phase.deletionPropagation ∉ startPhases opts := by
  constructor
  · simp [startPhases, h]
  · simp [startPhases, h, List.mem_replicate]

/-- Witness for copy_delete_barrier with two workers. -/
theorem copy_delete_barrier_witness :
    startPhases ⟨"/a", "/b", false, false, false, 2⟩ =
      (Phase.checkConfig :: List.replicate 2 Phase.spawnWorker) ++
        [Phase.walkSource, Phase.closeQueue, Phase.joinWorkers,
          Phase.returnResult] ∧
    Phase.deletionPropagation ∉ startPhases ⟨"/a", "/b", false, false, false, 2⟩ :=
  copy_delete_barrier ⟨"/a", "/b", false, false, false, 2⟩ (by decide)

/-- C10: the source-equals-destination precondition is decided by exact
string equality of the two configured paths (syncer.go line 149): any two
path strings that differ in any character — even two spellings of the
same directory such as /a and /a/ — pass the check and the run proceeds
without a configuration error. -/
theorem source_dest_string_equality (opts : SyncOptions)
    (events : List WalkEvent) (destState : String → Option FileInfo)
    (h : opts.sourcePath ≠ opts.destinationPath) :
    start opts events destState =
      Except.ok ⟨opts.workers,
        (walkJobs events).flatMap (perFileEffects opts destState),
        goWalkDirResult walkCallback events⟩ := by
  simp [start, h]

/-- Witness for source_dest_string_equality: /a versus /a/ — two
spellings of the same directory — proceed past the check. -/
theorem source_dest_string_equality_witness :
    start ⟨"/a", "/a/", false, false, false, 1⟩ [] (fun _ => none) =
      Except.ok ⟨1, (walkJobs []).flatMap
        (perFileEffects ⟨"/a", "/a/", false, false, false, 1⟩ (fun _ => none)),
        goWalkDirResult walkCallback []⟩ :=
  source_dest_string_equality ⟨"/a", "/a/", false, false, false, 1⟩ []
    (fun _ => none) (by decide)

end GoSync
